import Mathlib

/-!
Verification of the minitaskx per-worker reconciliation engine ("infomer").

The definitions below are a shallow embedding of the Go sources under
`core/worker/infomer` (infomer.go, dependency.go) together with the parts of
the `core/model` package, `internal/queue` and `pkg/util/retry` that they use.
Pure functions become Lean functions; the external collaborators (recorder,
indexer cache contents, change queue membership) are passed in explicitly as
oracles; a Go nil-pointer dereference is modelled as an explicit crash value.
-/

namespace Minitaskx

/-- Modelled from the spec: the task status domain of `core/model`
(`TaskStatus` is not under src/).  Section 3: Status is one of
NotExist, WaitRunning, Running, WaitPaused, Paused, WaitResume, WaitStop,
Stop, Success, Failed. -/
inductive TaskStatus where
  | notExist
  | waitRunning
  | running
  | waitPaused
  | paused
  | waitResume
  | waitStop
  | stop
  | success
  | failed
deriving DecidableEq, Repr

/-- All ten status values, for finite enumeration. -/
def allStatuses : List TaskStatus :=
  [.notExist, .waitRunning, .running, .waitPaused, .paused,
   .waitResume, .waitStop, .stop, .success, .failed]

/-- Modelled from the spec: `TaskStatus.IsFinalStatus` of `core/model` (not
under src/).  Section 3: FinalStatus = \x7bStop, Success, Failed\x7d. -/
def TaskStatus.IsFinalStatus : TaskStatus → Bool
  | .stop => true
  | .success => true
  | .failed => true
  | _ => false

/-- Modelled from the spec: `TaskStatus.IsAutoFinished` of `core/model` (not
under src/).  Section 3: AutoFinished = \x7bSuccess, Failed\x7d. -/
def TaskStatus.IsAutoFinished : TaskStatus → Bool
  | .success => true
  | .failed => true
  | _ => false

/-- Embedding of `model.Task` (core/model/task.go) restricted to the fields
the infomer reads: `TaskKey`, `Type`, `Status`, `Msg`.  The remaining fields
(biz metadata, payload, labels, timestamps) are opaque to the core and are
never inspected by the code under verification.  `model.TaskExecResult`
(same key and status domain, spec section 3) is embedded by the same
structure. -/
structure Task where
  taskKey : String
  type : String
  status : TaskStatus
  msg : String
deriving DecidableEq, Repr

/-- Modelled from the spec: the change kinds of `core/model` (not under
src/).  Section 3: ChangeType is one of Create, Pause, Resume, Stop,
ExceptionFinish, ExceptionIgnore. -/
inductive ChangeType where
  | create
  | pause
  | resume
  | stop
  | exceptionFinish
  | exceptionIgnore
deriving DecidableEq, Repr

/-- Modelled from the spec: `model.Change` (not under src/).  Section 3:
`\x7bTaskKey, TaskType, ChangeType, Task\x7d`; the `Task` field is a Go
pointer, hence an `Option`. -/
structure Change where
  taskKey : String
  taskType : String
  changeType : ChangeType
  task : Option Task
deriving DecidableEq, Repr

/-- Modelled from the spec: `model.GetChangeType` (not under src/), the
transition table of section 4.3 (real × want ⇒ change); any pair outside
the table is an error. -/
def GetChangeType (real want : TaskStatus) : Except String ChangeType :=
  match real, want with
  | .notExist, .waitRunning => .ok .create
  | .notExist, .waitStop => .ok .stop
  | .running, .waitPaused => .ok .pause
  | .running, .waitStop => .ok .stop
  | .running, .notExist => .ok .exceptionFinish
  | .paused, .waitResume => .ok .resume
  | .paused, .waitStop => .ok .stop
  | .paused, .notExist => .ok .exceptionFinish
  | .stop, .waitRunning => .ok .exceptionIgnore
  | .stop, .waitPaused => .ok .exceptionIgnore
  | .stop, .waitResume => .ok .exceptionIgnore
  | .success, .waitRunning => .ok .exceptionIgnore
  | .success, .waitPaused => .ok .exceptionIgnore
  | .success, .waitResume => .ok .exceptionIgnore
  | .failed, .waitRunning => .ok .exceptionIgnore
  | .failed, .waitPaused => .ok .exceptionIgnore
  | .failed, .waitResume => .ok .exceptionIgnore
  | _, _ => .error "unknown change type"

/-- Modelled from the spec: `model.Change.IsException` (not under src/).
Sections 3 and 4.5d: the exception change kinds are ExceptionFinish and
ExceptionIgnore. -/
def Change.IsException (c : Change) : Bool :=
  c.changeType = ChangeType.exceptionFinish ∨ c.changeType = ChangeType.exceptionIgnore

/-- Embedding of `taskPair` (infomer.go lines 148-151): the two sides are Go
pointers, hence `Option`s. -/
structure taskPair where
  want : Option Task
  real : Option Task
deriving DecidableEq, Repr

/-- A Go runtime crash.  `nilDeref` models dereferencing a field of a nil
pointer, which panics the goroutine. -/
inductive Crash where
  | nilDeref
deriving DecidableEq, Repr

/-- Embedding of the loop body of `diff` (infomer.go lines 233-261) for one
pair: compute the default `NotExist` statuses, skip equal statuses, look up
the change type, and on a lookup error log `want.TaskKey` — which
dereferences `want` even when the want side is absent (nil), modelled as
`Crash.nilDeref`. -/
def diffOne (p : taskPair) : Except Crash (Option Change) :=
  let realStatus := match p.real with
    | some r => r.status
    | none => TaskStatus.notExist
  let wantStatus := match p.want with
    | some w => w.status
    | none => TaskStatus.notExist
  let changeTask : Option Task := match p.want with
    | some w => some w
    | none => p.real
  if realStatus = wantStatus then
    .ok none
  else
    match GetChangeType realStatus wantStatus with
    | .error _ =>
      match p.want with
      | some _ => .ok none
      | none => .error Crash.nilDeref
    | .ok ct =>
      match changeTask with
      | some c => .ok (some ⟨c.taskKey, c.type, ct, some c⟩)
      | none => .error Crash.nilDeref

/-- Embedding of `diff` (infomer.go lines 230-264): fold `diffOne` over the
pairs in order, collecting the emitted changes; a crash aborts the whole
call. -/
def diff : List taskPair → Except Crash (List Change)
  | [] => .ok []
  | p :: rest =>
    match diffOne p with
    | .error c => .error c
    | .ok none => diff rest
    | .ok (some ch) =>
      match diff rest with
      | .error c => .error c
      | .ok chs => .ok (ch :: chs)

/-- Embedding of `Indexer.ListTasks` (dependency.go): with an empty key list
the whole cache snapshot is returned; otherwise, for each cached item (outer
loop) and each requested key (inner loop), the item is appended whenever its
key matches. -/
def ListTasks (cacheList : List Task) (keys : List String) : List Task :=
  if keys.isEmpty then cacheList
  else cacheList.flatMap fun item =>
    (keys.filter (fun key => item.taskKey = key)).map (fun _ => item)

/-- Embedding of `Indexer.ListTaskKeys` (dependency.go): the keys of the
cache snapshot. -/
def ListTaskKeys (cacheList : List Task) : List String :=
  cacheList.map (·.taskKey)

/-- Embedding of `lo.KeyBy` followed by a map lookup (infomer.go lines
213-214): `KeyBy` inserts each task under its key in iteration order, so a
lookup returns the last task with that key. -/
def keyBy (ts : List Task) (k : String) : Option Task :=
  (ts.filter (fun t => t.taskKey = k)).getLast?

/-- Embedding of `Infomer.loadTaskPairs` (infomer.go lines 206-228): fetch
the want tasks (propagating the recorder error), list the real tasks from
the cache, pair each want task with the real task of the same key, then
append a real-only pair for each real task with no want task of its key. -/
def loadTaskPairs (batchGetWantTask : List String → Except String (List Task))
    (cacheList : List Task) (wantTaskKeys realTaskKeys : List String) :
    Except String (List taskPair) :=
  match batchGetWantTask wantTaskKeys with
  | .error e => .error e
  | .ok wantTasks =>
    let realTasks := ListTasks cacheList realTaskKeys
    let pairs := wantTasks.map (fun w => taskPair.mk (some w) (keyBy realTasks w.taskKey))
    let extra := (realTasks.filter fun r =>
      (wantTasks.filter (fun w => w.taskKey = r.taskKey)).isEmpty).map
      (fun r => taskPair.mk none (some r))
    .ok (pairs ++ extra)

/-- Embedding of steps 1-2 of `Infomer.loadTaskPairsThreadSafe` (infomer.go
lines 155-180): collect the trigger keys with an outstanding change
(`changeQueue.Exist`), take want keys from the trigger and real keys from
the trigger or — on resync — from the full cache key snapshot, and, when
some trigger key is outstanding, drop the outstanding keys from both
lists. -/
def selectKeys (exist : String → Bool) (cacheList : List Task)
    (taskKeys : List String) (resync : Bool) : List String × List String :=
  let processingKeys := taskKeys.filter exist
  let wantTaskKeys := taskKeys
  let realTaskKeys := if resync then ListTaskKeys cacheList else taskKeys
  if processingKeys.isEmpty then
    (wantTaskKeys, realTaskKeys)
  else
    (wantTaskKeys.filter (fun k => ¬ processingKeys.contains k),
     realTaskKeys.filter (fun k => ¬ processingKeys.contains k))

/-- Embedding of step 3 of `Infomer.loadTaskPairsThreadSafe` (infomer.go
lines 189-202): drop every pair whose present want side or present real
side is auto-finished. -/
def filterFinished (pairs : List taskPair) : List taskPair :=
  pairs.filter fun p =>
    (match p.want with
     | some w => ¬ w.status.IsAutoFinished
     | none => true) &&
    (match p.real with
     | some r => ¬ r.status.IsAutoFinished
     | none => true)

/-- Embedding of `Infomer.loadTaskPairsThreadSafe` (infomer.go lines
153-204): key selection, pair loading, and the finished-pair filter. -/
def loadTaskPairsThreadSafe (exist : String → Bool)
    (batchGetWantTask : List String → Except String (List Task))
    (cacheList : List Task) (taskKeys : List String) (resync : Bool) :
    Except String (List taskPair) :=
  let (wantTaskKeys, realTaskKeys) := selectKeys exist cacheList taskKeys resync
  match loadTaskPairs batchGetWantTask cacheList wantTaskKeys realTaskKeys with
  | .error e => .error e
  | .ok pairs => .ok (filterFinished pairs)

/-- Observable recorder interactions and queue acknowledgements of the
infomer, in program order.  A write event carries the result the recorder
oracle returned for it (`ok`). -/
inductive Event where
  | finishTask (key : String) (status : TaskStatus) (msg : String) (ok : Bool)
  | updateTask (key : String) (ok : Bool)
  | done (key : String)
deriving DecidableEq, Repr

/-- Whether an event is a recorder write attempt that succeeded. -/
def Event.writeOk : Event → Bool
  | .finishTask _ _ _ ok => ok
  | .updateTask _ ok => ok
  | .done _ => false

/-- Whether an event is a recorder write attempt (of either kind). -/
def Event.isWrite : Event → Bool
  | .finishTask _ _ _ _ => true
  | .updateTask _ _ => true
  | .done _ => false

/-- Embedding of `Infomer.handleException` (infomer.go lines 266-285):
non-exception changes are kept in order; an `ExceptionFinish` change
triggers one best-effort `recorder.FinishTask` with status `Stop` and
message "exception finish" (`finishOk` gives the recorder's answer, which
is only logged); `ExceptionIgnore` is dropped silently. -/
def handleException (finishOk : String → Bool) :
    List Change → List Event × List Change
  | [] => ([], [])
  | c :: rest =>
    let (evs, ns) := handleException finishOk rest
    if ¬ c.IsException then
      (evs, c :: ns)
    else if c.changeType = ChangeType.exceptionFinish then
      (Event.finishTask c.taskKey TaskStatus.stop "exception finish" (finishOk c.taskKey) :: evs, ns)
    else
      (evs, ns)

/-- One iteration of the enqueue loop of `Infomer.enqueueIfTaskChange`
(infomer.go lines 101-124) for one trigger: load the pairs (a load error is
logged and the tick is skipped with no events and no enqueues), diff them
(a crash propagates), handle exceptions, and enqueue the remaining
changes.  Returns the recorder events of the tick and the changes handed to
`changeQueue.Add`. -/
def processTrigger (exist : String → Bool)
    (batchGetWantTask : List String → Except String (List Task))
    (finishOk : String → Bool)
    (cacheList : List Task) (taskKeys : List String) (resync : Bool) :
    Except Crash (List Event × List Change) :=
  match loadTaskPairsThreadSafe exist batchGetWantTask cacheList taskKeys resync with
  | .error _ => .ok ([], [])
  | .ok pairs =>
    match diff pairs with
    | .error c => .error c
    | .ok changes => .ok (handleException finishOk changes)

/-- Modelled from the spec: `retry.Do` of pkg/util/retry (not under src/).
Sections 4.5 and 7: bounded attempts with exponential backoff; the
operation is retried until it succeeds or the attempts are exhausted.
`op i` is the oracle answer for attempt `i`; the result is the list of
attempt outcomes in order together with the overall outcome.  Backoff
delays have no observable effect on the results. -/
def retryDo (op : Nat → Bool) : Nat → Nat → List Bool × Bool
  | 0, _ => ([], false)
  | n + 1, i =>
    if op i then ([true], true)
    else
      let (t, r) := retryDo op n (i + 1)
      (false :: t, r)

/-- The per-attempt recorder oracle seen by the monitor callback: for each
attempt index, whether `FinishTask` (respectively `UpdateTask`) succeeds. -/
structure MonitorRecorder where
  finishOk : Nat → Bool
  updateOk : Nat → Bool

/-- The recorder write attempts made by the monitor callback for one
observed task: the retried operation calls `FinishTask` when the status is
final and `UpdateTask` otherwise (infomer.go lines 132-137), `bound` being
the retry policy's attempt bound. -/
def writeAttemptEvents (rec : MonitorRecorder) (bound : Nat) (t : Task) : List Event :=
  if t.status.IsFinalStatus then
    (retryDo rec.finishOk bound 0).1.map (fun ok => Event.finishTask t.taskKey t.status t.msg ok)
  else
    (retryDo rec.updateOk bound 0).1.map (fun ok => Event.updateTask t.taskKey ok)

/-- Embedding of the `SetAfterChange` callback of
`Infomer.monitorChangeResult` (infomer.go lines 129-143): the retried
recorder write (whose failure after the retries is only logged) followed
unconditionally by `changeQueue.Done` for the task's key. -/
def afterChangeCb (rec : MonitorRecorder) (bound : Nat) (t : Task) : List Event :=
  writeAttemptEvents rec bound t ++ [Event.done t.taskKey]

/-- Outcome of one `Infomer.Run` call at its guard. -/
inductive RunOutcome where
  | proceeded
  | alreadyRunning
deriving DecidableEq, Repr

/-- The operations of an `Infomer` instance that could touch the `running`
flag over its lifetime. -/
inductive InfOp where
  | run
  | shutdown
deriving DecidableEq, Repr

/-- Embedding of the lifetime of the `running` flag (infomer.go lines
18-26 and 41-45): `Run` does `running.CompareAndSwap(false, true)` and
returns the "infomer already running" error when the swap fails; no code
path — `Run` returning included, and `Shutdown` (lines 76-93) — ever
resets the flag to false.  Given the initial flag, returns the guard
outcome of each `run` operation in order. -/
def runOutcomes (running : Bool) : List InfOp → List RunOutcome
  | [] => []
  | InfOp.run :: rest =>
    (if running then RunOutcome.alreadyRunning else RunOutcome.proceeded) :: runOutcomes true rest
  | InfOp.shutdown :: rest => runOutcomes running rest

/-- One minute expressed in nanoseconds, the unit of Go's `time.Duration`
(`time.Minute` in dependency.go line 125). -/
def minuteNs : Nat := 60000000000

/-- Embedding of `recycleCondition` from `Indexer.initCache` (dependency.go
lines 121-130): a nil entry is recyclable; an entry holding a task is
recyclable exactly when the task's status is final and strictly more than
one minute has passed since the entry was set.  The want-side state does
not occur in the condition. -/
def recycleCondition (task : Option Task) (afterSetDuration : Nat) : Bool :=
  match task with
  | none => true
  | some t => t.status.IsFinalStatus && decide (afterSetDuration > minuteNs)

/-- C9: an Indexer cache entry holding a task is recyclable exactly when the
task's status is in \x7bStop, Success, Failed\x7d and strictly more than one
minute has elapsed since the entry was set; an entry with a non-final
status, or set one minute ago or less, is never recyclable — and the
condition takes no want-side input at all. -/
theorem c9_recycleCondition_iff (t : Task) (d : Nat) :
    recycleCondition (some t) d = true ↔
      ((t.status = TaskStatus.stop ∨ t.status = TaskStatus.success ∨
        t.status = TaskStatus.failed) ∧ minuteNs < d) := by
  cases t with
  | mk k ty s m =>
    cases s <;> simp [recycleCondition, TaskStatus.IsFinalStatus, Nat.lt_iff_add_one_le]

/-- C5: `handleException` returns exactly the non-exception changes, in
order, and produces exactly one `FinishTask(Stop, "exception finish")`
recorder call per `ExceptionFinish` change (its result only logged), while
`ExceptionIgnore` changes are dropped with no recorder call. -/
theorem c5_handleException_spec (finishOk : String → Bool) (cs : List Change) :
    (handleException finishOk cs).2 = cs.filter (fun c => ¬ c.IsException) ∧
    (handleException finishOk cs).1 =
      (cs.filter (fun c => c.changeType = ChangeType.exceptionFinish)).map
        (fun c => Event.finishTask c.taskKey TaskStatus.stop "exception finish"
          (finishOk c.taskKey)) := by
  induction cs with
  | nil => simp [handleException]
  | cons c rest ih =>
    obtain ⟨ih2, ih1⟩ := ih
    cases hct : c.changeType <;>
      simp [handleException, Change.IsException, hct, ih1, ih2]

/-- C3: a pair whose want side is present with status Success or Failed, or
whose real side is present with status Success or Failed, is dropped by the
finished-pair filter — the list `loadTaskPairsThreadSafe` hands to `diff` —
so no change is emitted for it that tick. -/
theorem c3_filterFinished_excludes (pairs : List taskPair) (p : taskPair)
    (h : (∃ w, p.want = some w ∧ (w.status = TaskStatus.success ∨ w.status = TaskStatus.failed)) ∨
         (∃ r, p.real = some r ∧ (r.status = TaskStatus.success ∨ r.status = TaskStatus.failed))) :
    p ∉ filterFinished pairs := by
  intro hmem
  rw [filterFinished, List.mem_filter] at hmem
  obtain ⟨-, hcond⟩ := hmem
  rcases h with ⟨w, hw, hs⟩ | ⟨r, hr, hs⟩
  · rcases hs with hs | hs <;> simp [hw, hs, TaskStatus.IsAutoFinished] at hcond
  · rcases hs with hs | hs <;> simp [hr, hs, TaskStatus.IsAutoFinished] at hcond

/-- Witness for C3 at a concrete auto-finished pair. -/
theorem c3_witness :
    ((∃ w, (taskPair.mk (some ⟨"k", "t", TaskStatus.success, ""⟩) none).want = some w ∧
        (w.status = TaskStatus.success ∨ w.status = TaskStatus.failed)) ∨
     (∃ r, (taskPair.mk (some ⟨"k", "t", TaskStatus.success, ""⟩) none).real = some r ∧
        (r.status = TaskStatus.success ∨ r.status = TaskStatus.failed))) ∧
    taskPair.mk (some ⟨"k", "t", TaskStatus.success, ""⟩) none ∉
      filterFinished [taskPair.mk (some ⟨"k", "t", TaskStatus.success, ""⟩) none] :=
  ⟨Or.inl ⟨_, rfl, Or.inl rfl⟩,
   c3_filterFinished_excludes _ _ (Or.inl ⟨_, rfl, Or.inl rfl⟩)⟩

/-- C4: evaluating `diff` at a pair whose (realStatus, wantStatus)
combination has no defined change type and whose want side is absent —
real present with status `Stop`, want nil — does not log-and-skip: the
error branch evaluates `want.TaskKey` on the nil want pointer, a nil
dereference that panics the goroutine, modelled as `Crash.nilDeref`. -/
theorem c4_diff_crashes_on_nil_want :
    diff [taskPair.mk none (some ⟨"k1", "t", TaskStatus.stop, ""⟩)] =
      Except.error Crash.nilDeref := rfl

/-- C7: if `recorder.BatchGetWantTask` fails on the selected want keys of a
trigger tick, the whole tick is skipped: the enqueue loop produces no
recorder event and enqueues no change, and does not crash, so the loop
continues with the next trigger. -/
theorem c7_batchGet_error_skips_tick (exist : String → Bool)
    (batchGetWantTask : List String → Except String (List Task))
    (finishOk : String → Bool) (cacheList : List Task)
    (taskKeys : List String) (resync : Bool) (e : String)
    (h : batchGetWantTask (selectKeys exist cacheList taskKeys resync).1 =
      Except.error e) :
    processTrigger exist batchGetWantTask finishOk cacheList taskKeys resync =
      Except.ok ([], []) := by
  rcases hsel : selectKeys exist cacheList taskKeys resync with ⟨wk, rk⟩
  rw [hsel] at h
  simp only [processTrigger, loadTaskPairsThreadSafe, loadTaskPairs, hsel, h]

/-- Witness for C7 at a concrete failing recorder. -/
theorem c7_witness :
    ((fun _ => Except.error "db down" : List String → Except String (List Task))
        (selectKeys (fun _ => false) [] ["k1"] false).1 = Except.error "db down") ∧
    processTrigger (fun _ => false) (fun _ => Except.error "db down")
      (fun _ => true) [] ["k1"] false = Except.ok ([], []) :=
  ⟨rfl, c7_batchGet_error_skips_tick (fun _ => false) (fun _ => Except.error "db down")
    (fun _ => true) [] ["k1"] false "db down" rfl⟩

/-- Every task of a `ListTasks` snapshot over a non-empty key list carries
one of the requested keys. -/
theorem ListTasks_key_mem (cacheList : List Task) (keys : List String) (t : Task)
    (hne : keys ≠ []) (ht : t ∈ ListTasks cacheList keys) : t.taskKey ∈ keys := by
  rw [ListTasks] at ht
  cases keys with
  | nil => exact absurd rfl hne
  | cons a l =>
    simp only [List.isEmpty_cons, Bool.false_eq_true, if_false, List.mem_flatMap] at ht
    obtain ⟨item, -, hmap⟩ := ht
    rw [List.mem_map] at hmap
    obtain ⟨key, hkey, rfl⟩ := hmap
    rw [List.mem_filter] at hkey
    obtain ⟨hk1, hk2⟩ := hkey
    simp only [decide_eq_true_eq] at hk2
    exact hk2 ▸ hk1

/-- C2 fails as stated: on a plain (non-resync) tick whose only trigger key
"k1" has an outstanding change (`Exist` true at the start of the tick), the
key is dropped from both key lists, but the real-key list thereby becomes
empty and `Indexer.ListTasks` with an empty key list returns the whole
cache snapshot, so the outstanding key's real task is reloaded and re-diffed
after all — `loadTaskPairsThreadSafe` hands `diff` a want-absent pair for
"k1". -/
theorem c2_counterexample :
    ((fun k => k = "k1" : String → Bool) "k1" = true) ∧
    loadTaskPairsThreadSafe (fun k => k = "k1") (fun _ => Except.ok [])
        [⟨"k1", "t", TaskStatus.running, ""⟩] ["k1"] false =
      Except.ok [taskPair.mk none (some ⟨"k1", "t", TaskStatus.running, ""⟩)] :=
  ⟨by simp, rfl⟩

/-- C2 amended: every task key of the trigger's `taskKeys` for which
`ChangeQueue.Exist` is true at the start of the tick is removed from both
the want-key and real-key lists, and whenever the remaining real-key list
is non-empty no real task with such a key is among the tasks that are
loaded and diffed that tick.  The exclusion is not complete: when every
selected real key is outstanding, the empty real-key list makes
`indexer.ListTasks` fall back to the full cache snapshot, and on a resync
tick keys coming only from `indexer.ListTaskKeys()` are never checked
against the queue. -/
theorem c2_trigger_keys_excluded (exist : String → Bool) (cacheList : List Task)
    (taskKeys : List String) (resync : Bool) (k : String)
    (hk : k ∈ taskKeys) (he : exist k = true) :
    k ∉ (selectKeys exist cacheList taskKeys resync).1 ∧
    k ∉ (selectKeys exist cacheList taskKeys resync).2 ∧
    ((selectKeys exist cacheList taskKeys resync).2 ≠ [] →
      ∀ t ∈ ListTasks cacheList (selectKeys exist cacheList taskKeys resync).2,
        t.taskKey ≠ k) := by
  have hpk : k ∈ taskKeys.filter exist := List.mem_filter.mpr ⟨hk, he⟩
  have hne : (taskKeys.filter exist).isEmpty = false := by
    cases hf : taskKeys.filter exist with
    | nil => rw [hf] at hpk; cases hpk
    | cons a l => rfl
  have h12 : k ∉ (selectKeys exist cacheList taskKeys resync).1 ∧
      k ∉ (selectKeys exist cacheList taskKeys resync).2 := by
    constructor <;>
    · simp only [selectKeys, hne, Bool.false_eq_true, if_false]
      intro hmem
      rw [List.mem_filter] at hmem
      simp [hk, he] at hmem
  refine ⟨h12.1, h12.2, ?_⟩
  intro hrk t ht heq
  exact h12.2 (heq ▸ ListTasks_key_mem cacheList _ t hrk ht)

/-- Witness for the amended C2 at a concrete trigger with one outstanding
key and one remaining real key. -/
theorem c2_witness :
    ("k1" ∈ ["k1", "k2"] ∧ (fun k => k = "k1" : String → Bool) "k1" = true) ∧
    ("k1" ∉ (selectKeys (fun k => k = "k1") [⟨"k2", "t", TaskStatus.running, ""⟩]
        ["k1", "k2"] false).1 ∧
     "k1" ∉ (selectKeys (fun k => k = "k1") [⟨"k2", "t", TaskStatus.running, ""⟩]
        ["k1", "k2"] false).2 ∧
     ((selectKeys (fun k => k = "k1") [⟨"k2", "t", TaskStatus.running, ""⟩]
        ["k1", "k2"] false).2 ≠ [] →
      ∀ t ∈ ListTasks [⟨"k2", "t", TaskStatus.running, ""⟩]
          (selectKeys (fun k => k = "k1") [⟨"k2", "t", TaskStatus.running, ""⟩]
            ["k1", "k2"] false).2,
        t.taskKey ≠ "k1")) :=
  ⟨⟨by simp, by simp⟩,
   c2_trigger_keys_excluded (fun k => k = "k1") [⟨"k2", "t", TaskStatus.running, ""⟩]
     ["k1", "k2"] false "k1" (by simp) (by simp)⟩

/-- Every cached task occurs in the `ListTasks` snapshot taken over the full
cache key list. -/
theorem mem_ListTasks_of_mem_cache (cacheList : List Task) (r : Task)
    (hr : r ∈ cacheList) : r ∈ ListTasks cacheList (ListTaskKeys cacheList) := by
  unfold ListTasks
  cases hk : (ListTaskKeys cacheList).isEmpty with
  | true =>
    simp only [if_true]
    exact hr
  | false =>
    simp only [Bool.false_eq_true, if_false, List.mem_flatMap]
    refine ⟨r, hr, ?_⟩
    have hkey : r.taskKey ∈ (ListTaskKeys cacheList).filter (fun key => r.taskKey = key) :=
      List.mem_filter.mpr ⟨List.mem_map.mpr ⟨r, hr, rfl⟩, by simp⟩
    exact List.mem_map.mpr ⟨r.taskKey, hkey, rfl⟩

/-- C6 fails in its last part: the resync pair formed by a cached `Running`
task with no matching want task — the S5 situation — yields an
`ExceptionFinish` change, and no real status at all combines with a
`NotExist` want status to give change type `Stop`. -/
theorem c6_counterexample :
    diff [taskPair.mk none (some ⟨"k2", "t", TaskStatus.running, ""⟩)] =
      Except.ok [⟨"k2", "t", ChangeType.exceptionFinish,
        some ⟨"k2", "t", TaskStatus.running, ""⟩⟩] ∧
    (allStatuses.all fun s =>
      match GetChangeType s TaskStatus.notExist with
      | .ok ChangeType.stop => false
      | _ => true) = true :=
  ⟨rfl, rfl⟩

/-- C6 amended: with no outstanding trigger key, the real keys are the full
`indexer.ListTaskKeys()` snapshot when `resync` is true and the trigger's
`taskKeys` when it is false; and on a resync tick a cached real task with
no matching want task forms a pair with an absent want side which, for a
`Running` real task, yields an `ExceptionFinish` change (handled by a
best-effort terminal `Stop` write), not a `Stop` change. -/
theorem c6_resync_real_keys_and_pairs (exist : String → Bool)
    (batchGetWantTask : List String → Except String (List Task))
    (cacheList : List Task) (taskKeys : List String)
    (wantTasks : List Task) (r : Task)
    (hex : (taskKeys.filter exist).isEmpty = true)
    (hbg : batchGetWantTask taskKeys = Except.ok wantTasks)
    (hr : r ∈ cacheList)
    (hnw : (wantTasks.filter (fun w => w.taskKey = r.taskKey)).isEmpty = true)
    (hrun : r.status = TaskStatus.running) :
    (selectKeys exist cacheList taskKeys true).2 = ListTaskKeys cacheList ∧
    (selectKeys exist cacheList taskKeys false).2 = taskKeys ∧
    ∃ pairs,
      loadTaskPairs batchGetWantTask cacheList taskKeys (ListTaskKeys cacheList) =
        Except.ok pairs ∧
      taskPair.mk none (some r) ∈ pairs ∧
      diffOne (taskPair.mk none (some r)) =
        Except.ok (some ⟨r.taskKey, r.type, ChangeType.exceptionFinish, some r⟩) := by
  refine ⟨by simp [selectKeys, hex], by simp [selectKeys, hex], ?_⟩
  refine ⟨_, by rw [loadTaskPairs, hbg], ?_, ?_⟩
  · rw [List.mem_append]
    right
    rw [List.mem_map]
    refine ⟨r, List.mem_filter.mpr ⟨mem_ListTasks_of_mem_cache cacheList r hr, ?_⟩, rfl⟩
    simpa using hnw
  · obtain ⟨k, ty, s, m⟩ := r
    simp only at hrun
    subst hrun
    rfl

/-- Witness for the amended C6 at a concrete one-task cache. -/
theorem c6_witness :
    (((["k1"] : List String).filter (fun _ => false)).isEmpty = true ∧
     (fun _ => Except.ok ([] : List Task) : List String → Except String (List Task)) ["k1"] =
       Except.ok [] ∧
     (⟨"k2", "t", TaskStatus.running, ""⟩ : Task) ∈
       [(⟨"k2", "t", TaskStatus.running, ""⟩ : Task)] ∧
     (([] : List Task).filter (fun w => w.taskKey = "k2")).isEmpty = true ∧
     (⟨"k2", "t", TaskStatus.running, ""⟩ : Task).status = TaskStatus.running) ∧
    ((selectKeys (fun _ => false) [⟨"k2", "t", TaskStatus.running, ""⟩] ["k1"] true).2 =
       ListTaskKeys [⟨"k2", "t", TaskStatus.running, ""⟩] ∧
     (selectKeys (fun _ => false) [⟨"k2", "t", TaskStatus.running, ""⟩] ["k1"] false).2 =
       ["k1"] ∧
     ∃ pairs,
       loadTaskPairs (fun _ => Except.ok []) [⟨"k2", "t", TaskStatus.running, ""⟩] ["k1"]
           (ListTaskKeys [⟨"k2", "t", TaskStatus.running, ""⟩]) = Except.ok pairs ∧
       taskPair.mk none (some ⟨"k2", "t", TaskStatus.running, ""⟩) ∈ pairs ∧
       diffOne (taskPair.mk none (some ⟨"k2", "t", TaskStatus.running, ""⟩)) =
         Except.ok (some ⟨"k2", "t", ChangeType.exceptionFinish,
           some ⟨"k2", "t", TaskStatus.running, ""⟩⟩)) :=
  ⟨⟨rfl, rfl, by simp, rfl, rfl⟩,
   c6_resync_real_keys_and_pairs (fun _ => false) (fun _ => Except.ok [])
     [⟨"k2", "t", TaskStatus.running, ""⟩] ["k1"] [] ⟨"k2", "t", TaskStatus.running, ""⟩
     rfl rfl (by simp) rfl rfl⟩

/-- The retried operation makes at most `bound` attempts. -/
theorem retryDo_length_le (op : Nat → Bool) :
    ∀ bound i, (retryDo op bound i).1.length ≤ bound := by
  intro bound
  induction bound with
  | zero => intro i; simp [retryDo]
  | succ n ih =>
    intro i
    rw [retryDo]
    cases h : op i with
    | true => simp [h]
    | false =>
      simp only [h, Bool.false_eq_true, if_false, List.length_cons]
      exact Nat.succ_le_succ (ih (i + 1))

/-- Every event of the retried recorder write is a write attempt. -/
theorem writeAttemptEvents_isWrite (rec : MonitorRecorder) (bound : Nat) (t : Task) :
    ∀ e ∈ writeAttemptEvents rec bound t, e.isWrite = true := by
  intro e he
  rw [writeAttemptEvents] at he
  rcases hf : t.status.IsFinalStatus with hv | hv <;>
    rw [hf] at he <;> simp only [if_true, Bool.false_eq_true, if_false] at he <;>
    obtain ⟨ok, -, rfl⟩ := List.mem_map.mp he <;> rfl

/-- C1 fails as stated: with a recorder whose writes always fail, the
monitor callback on a final-status task still acknowledges the change —
`changeQueue.Done` for the task's key appears in the event trace — although
no recorder write in the trace succeeded. -/
theorem c1_counterexample :
    (Event.done "k" ∈
      afterChangeCb ⟨fun _ => false, fun _ => false⟩ 3 ⟨"k", "t", TaskStatus.success, ""⟩) ∧
    (afterChangeCb ⟨fun _ => false, fun _ => false⟩ 3
        ⟨"k", "t", TaskStatus.success, ""⟩).all (fun e => !e.writeOk) = true :=
  ⟨by simp [afterChangeCb], rfl⟩

/-- C1 amended: for every real-status change observed by the monitor
callback, `changeQueue.Done` for that task key is called exactly once, as
the final action of the callback, after the corresponding retried recorder
write has completed — whether it ultimately succeeded or exhausted its
retries; every earlier event of the callback is a recorder write
attempt. -/
theorem c1_done_after_write_attempts (rec : MonitorRecorder) (bound : Nat) (t : Task) :
    (afterChangeCb rec bound t).getLast? = some (Event.done t.taskKey) ∧
    (afterChangeCb rec bound t).count (Event.done t.taskKey) = 1 ∧
    ∀ e ∈ (afterChangeCb rec bound t).dropLast, e.isWrite = true := by
  refine ⟨?_, ?_, ?_⟩
  · rw [afterChangeCb, List.getLast?_concat]
  · rw [afterChangeCb, List.count_append]
    have h0 : (writeAttemptEvents rec bound t).count (Event.done t.taskKey) = 0 := by
      rw [List.count_eq_zero]
      intro hmem
      have := writeAttemptEvents_isWrite rec bound t _ hmem
      simp [Event.isWrite] at this
    rw [h0]
    simp
  · rw [afterChangeCb, List.dropLast_concat]
    exact writeAttemptEvents_isWrite rec bound t

/-- Witness for the amended C1 at a concrete failing recorder. -/
theorem c1_witness :
    (afterChangeCb ⟨fun _ => false, fun _ => false⟩ 2
        ⟨"k", "t", TaskStatus.success, ""⟩).getLast? = some (Event.done "k") ∧
    (afterChangeCb ⟨fun _ => false, fun _ => false⟩ 2
        ⟨"k", "t", TaskStatus.success, ""⟩).count (Event.done "k") = 1 ∧
    ∀ e ∈ (afterChangeCb ⟨fun _ => false, fun _ => false⟩ 2
        ⟨"k", "t", TaskStatus.success, ""⟩).dropLast, e.isWrite = true :=
  c1_done_after_write_attempts ⟨fun _ => false, fun _ => false⟩ 2
    ⟨"k", "t", TaskStatus.success, ""⟩

/-- C8: the monitor callback writes through `recorder.FinishTask` when the
observed status is final and through `recorder.UpdateTask` otherwise, with
at most `bound` retry attempts, and then — whether or not the write
succeeded — calls `changeQueue.Done` with the observed task key as its
final action. -/
theorem c8_monitor_callback (rec : MonitorRecorder) (bound : Nat) (t : Task) :
    (t.status.IsFinalStatus = true →
      ∃ l : List Bool, writeAttemptEvents rec bound t =
        l.map (fun ok => Event.finishTask t.taskKey t.status t.msg ok)) ∧
    (t.status.IsFinalStatus = false →
      ∃ l : List Bool, writeAttemptEvents rec bound t =
        l.map (fun ok => Event.updateTask t.taskKey ok)) ∧
    (writeAttemptEvents rec bound t).length ≤ bound ∧
    afterChangeCb rec bound t =
      writeAttemptEvents rec bound t ++ [Event.done t.taskKey] := by
  refine ⟨?_, ?_, ?_, rfl⟩
  · intro h
    exact ⟨(retryDo rec.finishOk bound 0).1, by rw [writeAttemptEvents, h]; simp⟩
  · intro h
    exact ⟨(retryDo rec.updateOk bound 0).1, by rw [writeAttemptEvents, h]; simp⟩
  · rw [writeAttemptEvents]
    rcases t.status.IsFinalStatus with hv | hv <;>
      simp only [if_true, Bool.false_eq_true, if_false, List.length_map] <;>
      exact retryDo_length_le _ bound 0

/-- Witness for C8 at a concrete final-status task. -/
theorem c8_witness :
    ((⟨"k", "t", TaskStatus.stop, "m"⟩ : Task).status.IsFinalStatus = true) ∧
    (∃ l : List Bool, writeAttemptEvents ⟨fun _ => true, fun _ => false⟩ 1
        ⟨"k", "t", TaskStatus.stop, "m"⟩ =
      l.map (fun ok => Event.finishTask "k" TaskStatus.stop "m" ok)) ∧
    (writeAttemptEvents ⟨fun _ => true, fun _ => false⟩ 1
        ⟨"k", "t", TaskStatus.stop, "m"⟩).length ≤ 1 ∧
    afterChangeCb ⟨fun _ => true, fun _ => false⟩ 1 ⟨"k", "t", TaskStatus.stop, "m"⟩ =
      writeAttemptEvents ⟨fun _ => true, fun _ => false⟩ 1
        ⟨"k", "t", TaskStatus.stop, "m"⟩ ++ [Event.done "k"] :=
  ⟨rfl,
   (c8_monitor_callback ⟨fun _ => true, fun _ => false⟩ 1
     ⟨"k", "t", TaskStatus.stop, "m"⟩).1 rfl,
   (c8_monitor_callback ⟨fun _ => true, fun _ => false⟩ 1
     ⟨"k", "t", TaskStatus.stop, "m"⟩).2.2.1,
   (c8_monitor_callback ⟨fun _ => true, fun _ => false⟩ 1
     ⟨"k", "t", TaskStatus.stop, "m"⟩).2.2.2⟩

/-- With the running flag already set, every run call hits the guard. -/
theorem runOutcomes_true (ops : List InfOp) :
    runOutcomes true ops =
      List.replicate (ops.count InfOp.run) RunOutcome.alreadyRunning := by
  induction ops with
  | nil => rfl
  | cons op rest ih =>
    cases op with
    | run => simp [runOutcomes, ih, List.count_cons, List.replicate_succ]
    | shutdown => simp [runOutcomes, ih, List.count_cons]

/-- C10: over any sequence of `Run` and `Shutdown` calls on a fresh
`Infomer`, the first `Run` call proceeds past the compare-and-swap guard
and every later `Run` call — including calls made after earlier ones have
fully returned, since no operation resets the flag — gets the
"infomer already running" outcome; in particular at most one call ever
proceeds. -/
theorem c10_run_at_most_once (ops : List InfOp) :
    runOutcomes false ops =
      (if ops.count InfOp.run = 0 then []
       else RunOutcome.proceeded ::
         List.replicate (ops.count InfOp.run - 1) RunOutcome.alreadyRunning) ∧
    (runOutcomes false ops).count RunOutcome.proceeded ≤ 1 := by
  have hmain : runOutcomes false ops =
      (if ops.count InfOp.run = 0 then []
       else RunOutcome.proceeded ::
         List.replicate (ops.count InfOp.run - 1) RunOutcome.alreadyRunning) := by
    induction ops with
    | nil => rfl
    | cons op rest ih =>
      cases op with
      | run =>
        simp [runOutcomes, runOutcomes_true, List.count_cons]
      | shutdown =>
        simpa [runOutcomes, List.count_cons] using ih
  refine ⟨hmain, ?_⟩
  rw [hmain]
  cases h : ops.count InfOp.run with
  | zero => simp
  | succ n => simp [List.count_cons, List.count_replicate]

end Minitaskx
